import Mathlib

/-!
# CartoonSing demo page: a shallow embedding of `script.js`

The page controller `AudioPlayer` of `script.js` is embedded in two layers.

* Rendering (`fetchTextOrNull`, `resourceExists`, `renderTables`,
  `loadManifestAndRender`) is written in a small state-and-exception monad `JS`
  over a `World` holding the two table bodies, the console and the list of
  fetches issued so far.  The network is a parameter: `net n req` is the outcome
  of the `n`-th fetch of the page when that fetch is `req`, so every possible
  behaviour of the network is covered by quantifying over `net`.
* Audio mutual exclusion (`setupAudioMutualExclusion` and its `play` listeners)
  is a transition system over a `Player` state, whose events are the timer
  callbacks, the user's play clicks and the progress of the render.
-/

namespace CartoonSing

/-! ## Data model -/

/-- One manifest entry.  A field is `none` when the key is missing from the JSON
record; JavaScript treats a missing field and the empty string alike (falsy).
A field that is not a string stands for the string `fetch` and `audio.src`
convert it to. -/
structure DemoRecord where
  source : Option String := none
  target_timbre : Option String := none
  samoye : Option String := none
  svc_finetune : Option String := none
  baseline : Option String := none
  svs_finetune : Option String := none
deriving DecidableEq, Repr

/-- The entries of the parsed `demos.json`: the own keys of the object in
`Object.keys` order, each with its value; `none` is a value that is falsy or has
none of the six fields, such as `null` or a number. -/
abbrev Manifest := List (String × Option DemoRecord)

/-- The value `res.json()` resolves to: `null`, or a value with own keys.  A
value without keys (a number, `true`) is an object with no entries. -/
inductive Json where
  | null
  | object (entries : Manifest)
deriving DecidableEq, Repr

/-- The keys as `Object.keys(manifest)` lists them. -/
def objectKeys (manifest : Manifest) : List String :=
  manifest.map Prod.fst

/-- The expression `manifest[demoName] || {}`. -/
def recordOf (manifest : Manifest) (demoName : String) : DemoRecord :=
  match manifest.lookup demoName with
  | some (some rec) => rec
  | _ => {}

/-- JavaScript truthiness of an optional string: present and not empty. -/
def truthy : Option String → Bool
  | some s => s != ""
  | none => false

/-! ## The document -/

/-- An `audio` element as `renderTables` builds it. -/
structure AudioElement where
  attributes : List (String × String)
  className : String
  src : String
deriving DecidableEq, Repr

/-- A child of a table cell. -/
inductive Node where
  | text (content : String)
  | audio (el : AudioElement)
deriving DecidableEq, Repr

/-- A `td` element. -/
structure Td where
  className : String
  children : List Node
deriving DecidableEq, Repr

/-- A `tr` element with its `data-row` attribute. -/
structure Tr where
  dataRow : String
  cells : List Td
deriving DecidableEq, Repr

/-- The getter `td.textContent`: the text nodes of the cell, concatenated. -/
def Td.textContent (td : Td) : String :=
  td.children.foldl (fun acc n => match n with
    | Node.text s => acc ++ s
    | Node.audio _ => acc) ""

/-! ## Network and world -/

inductive Method where
  | GET
  | HEAD
deriving DecidableEq, Repr

/-- A call `fetch(url, { method, cache: 'no-cache' })`. -/
structure Request where
  method : Method
  url : String
deriving DecidableEq, Repr

/-- A resolved fetch.  `text` and `json` are what `res.text()` and `res.json()`
produce, `none` when the call throws. -/
structure Response where
  ok : Bool
  text : Option String := none
  json : Option Json := none
deriving DecidableEq, Repr

/-- What a `fetch` promise settles to. -/
inductive FetchOutcome where
  | rejected
  | resolved (res : Response)
deriving DecidableEq, Repr

/-- The network: the outcome of the `n`-th fetch of the page (counted from 0)
when it is the request `req`. -/
abbrev Network := Nat → Request → FetchOutcome

/-- Whether an outcome is a response with a success status. -/
def FetchOutcome.succeeded : FetchOutcome → Bool
  | FetchOutcome.resolved res => res.ok
  | FetchOutcome.rejected => false

/-- Whether an outcome is a rejected promise (the `await` throws). -/
def FetchOutcome.threw : FetchOutcome → Bool
  | FetchOutcome.rejected => true
  | FetchOutcome.resolved _ => false

/-- The observable state of the page.  A table body is `none` when
`getElementById` finds no such element. -/
structure World where
  requests : List Request := []
  warnings : List String := []
  rightTableBody : Option (List Tr) := none
  leftTableBody : Option (List Tr) := none
  bindTimers : Nat := 0
deriving DecidableEq, Repr

/-- A thrown JavaScript value. -/
inductive JsError where
  | networkError
  | bodyError
  | typeError
deriving DecidableEq, Repr

/-- A JavaScript computation: it ends with a value or a thrown error, and with
the world it leaves behind in both cases. -/
def JS (α : Type) : Type := World → Except JsError α × World

namespace JS

def pure {α : Type} (a : α) : JS α := fun w => (Except.ok a, w)

def bind {α β : Type} (m : JS α) (f : α → JS β) : JS β := fun w =>
  match m w with
  | (Except.ok a, w1) => f a w1
  | (Except.error e, w1) => (Except.error e, w1)

def throw {α : Type} (e : JsError) : JS α := fun w => (Except.error e, w)

/-- The statement `try { body } catch (e) { handler }`. -/
def tryCatch {α : Type} (body : JS α) (handler : JsError → JS α) : JS α := fun w =>
  match body w with
  | (Except.ok a, w1) => (Except.ok a, w1)
  | (Except.error e, w1) => handler e w1

end JS

instance : Monad JS where
  pure := JS.pure
  bind := JS.bind

deriving instance DecidableEq for Except

/-- The call `await fetch(url, ...)`: the request is recorded, and the await
throws when the promise is rejected. -/
def fetch (net : Network) (req : Request) : JS Response := fun w =>
  let w1 := { w with requests := w.requests ++ [req] }
  match net w.requests.length req with
  | FetchOutcome.rejected => (Except.error JsError.networkError, w1)
  | FetchOutcome.resolved res => (Except.ok res, w1)

/-- The call `await res.text()`. -/
def Response.readText (res : Response) : JS String :=
  match res.text with
  | some t => JS.pure t
  | none => JS.throw JsError.bodyError

/-- The call `await res.json()`. -/
def Response.readJson (res : Response) : JS Json :=
  match res.json with
  | some m => JS.pure m
  | none => JS.throw JsError.bodyError

/-- The call `console.warn(msg)`. -/
def consoleWarn (msg : String) : JS Unit := fun w =>
  (Except.ok (), { w with warnings := w.warnings ++ [msg] })

/-! ## Text helpers -/

/-- The code points `String.prototype.trim` strips: WhiteSpace and
LineTerminator of ECMAScript. -/
def isJsWhitespace (c : Char) : Bool :=
  let n := c.toNat
  n == 0x09 || n == 0x0A || n == 0x0B || n == 0x0C || n == 0x0D || n == 0x20 ||
  n == 0xA0 || n == 0x1680 || (0x2000 ≤ n && n ≤ 0x200A) || n == 0x2028 ||
  n == 0x2029 || n == 0x202F || n == 0x205F || n == 0x3000 || n == 0xFEFF

/-- The method `trim` on the characters of a string. -/
def trimChars (cs : List Char) : List Char :=
  ((cs.dropWhile isJsWhitespace).reverse.dropWhile isJsWhitespace).reverse

/-- The method `String.prototype.trim`. -/
def jsTrim (s : String) : String :=
  String.mk (trimChars s.data)

/-- The expression `x || fallback` for an optional string `x`. -/
def orDefault (x : Option String) (fallback : String) : String :=
  match x with
  | some s => if s = "" then fallback else s
  | none => fallback

/-! ## Fetch helpers of `AudioPlayer` -/

/-- The method `fetchTextOrNull(url)`: the trimmed text, or `none` for `null`. -/
def fetchTextOrNull (net : Network) (url : String) : JS (Option String) :=
  JS.tryCatch
    (do
      let res ← fetch net { method := Method.GET, url := url }
      if !res.ok then
        pure none
      else do
        let text ← res.readText
        let trimmed := jsTrim (orDefault (some text) "")
        pure (if trimmed = "" then none else some trimmed))
    (fun _ => pure none)

/-- The method `resourceExists(url)`.  The first `try` block either returns
`true` from the method (`some true`) or falls through to the second one
(`none`), also when its fetch throws. -/
def resourceExists (net : Network) (url : Option String) : JS Bool :=
  match url with
  | none => pure false
  | some u =>
    if u = "" then
      pure false
    else do
      let early ← JS.tryCatch
        (do
          let head ← fetch net { method := Method.HEAD, url := u }
          pure (if head.ok then some true else none))
        (fun _ => pure none)
      match early with
      | some b => pure b
      | none =>
        JS.tryCatch
          (do
            let getRes ← fetch net { method := Method.GET, url := u }
            pure getRes.ok)
          (fun _ => pure false)

/-! ## Rendering -/

/-- The `audio` element created for a present field: `preload="metadata"`,
`controls=""`, class `sample_audio`, and the field as `src`. -/
def mkAudio (src : String) : AudioElement :=
  { attributes := [("preload", "metadata"), ("controls", "")],
    className := "sample_audio",
    src := src }

/-- The body of `rightCols.forEach` and `leftCols.forEach`: a centred cell
holding an audio element when `src` is truthy. -/
def audioCell (src : Option String) : Td :=
  { className := "text-center",
    children := match src with
      | some s => if s = "" then [] else [Node.audio (mkAudio s)]
      | none => [] }

/-- The row `rightTr` of entry `index`. -/
def rightRow (index : Nat) (rec : DemoRecord) : Tr :=
  { dataRow := toString index,
    cells := [rec.source, rec.target_timbre, rec.samoye, rec.svc_finetune].map audioCell }

/-- The cell `lyricTd`. -/
def lyricCell (lyricsText : Option String) : Td :=
  { className := "desc",
    children := [Node.text (orDefault lyricsText "Enter lyrics here")] }

/-- The row `leftTr` of entry `index`. -/
def leftRow (index : Nat) (rec : DemoRecord) (lyricsText : Option String) : Tr :=
  { dataRow := toString index,
    cells := lyricCell lyricsText ::
      [rec.target_timbre, rec.baseline, rec.svs_finetune].map audioCell }

/-- The call `rightTableBody.appendChild(rightTr)`. -/
def appendRight (tr : Tr) : JS Unit := fun w =>
  (Except.ok (), { w with rightTableBody := w.rightTableBody.map (fun rows => rows ++ [tr]) })

/-- The call `leftTableBody.appendChild(leftTr)`. -/
def appendLeft (tr : Tr) : JS Unit := fun w =>
  (Except.ok (), { w with leftTableBody := w.leftTableBody.map (fun rows => rows ++ [tr]) })

/-- The path of the lyrics file of a demo. -/
def lyricsPath (demoName : String) : String :=
  "audio/" ++ demoName ++ "/lyrics"

/-- One iteration of the `for` loop of `renderTables`. -/
def renderEntry (net : Network) (manifest : Manifest) (index : Nat) (demoName : String) :
    JS Unit := do
  let record := recordOf manifest demoName
  let lyricsText ← fetchTextOrNull net (lyricsPath demoName)
  let sourceOk ← resourceExists net record.source
  if sourceOk then
    appendRight (rightRow index record)
  let baselineOk ← resourceExists net record.baseline
  if baselineOk then
    appendLeft (leftRow index record lyricsText)

/-- The `for` loop of `renderTables`, from `index` on; `demoNames` are the keys
not yet visited. -/
def renderLoop (net : Network) (manifest : Manifest) : Nat → List String → JS Unit
  | _, [] => pure ()
  | index, demoName :: rest => do
    renderEntry net manifest index demoName
    renderLoop net manifest (index + 1) rest

/-- The two assignments `innerHTML = ''`. -/
def clearTables : JS Unit := fun w =>
  (Except.ok (), { w with rightTableBody := w.rightTableBody.map (fun _ => []),
                          leftTableBody := w.leftTableBody.map (fun _ => []) })

/-- The method `renderTables(manifest)`.  On `null` the call `Object.keys`
throws a `TypeError`, after the table bodies have been cleared. -/
def renderTables (net : Network) (manifest : Json) : JS Unit := fun w =>
  match w.rightTableBody, w.leftTableBody with
  | some _, some _ =>
    (do
      clearTables
      match manifest with
      | Json.null => JS.throw JsError.typeError
      | Json.object entries => renderLoop net entries 0 (objectKeys entries)) w
  | _, _ => (Except.ok (), w)

/-- The method `setupAudioMutualExclusion()` as the renderer sees it: one more
binding callback is scheduled with `setTimeout`. -/
def setupAudioMutualExclusion : JS Unit := fun w =>
  (Except.ok (), { w with bindTimers := w.bindTimers + 1 })

/-- The warning of `loadManifestAndRender`. -/
def manifestWarning : String :=
  "demos.json not found or failed to parse, skip dynamic rendering."

/-- The method `loadManifestAndRender()`. -/
def loadManifestAndRender (net : Network) : JS Unit :=
  JS.tryCatch
    (do
      let res ← fetch net { method := Method.GET, url := "demos.json" }
      if !res.ok then
        pure ()
      else do
        let manifest ← res.readJson
        renderTables net manifest
        setupAudioMutualExclusion)
    (fun _ => consoleWarn manifestWarning)

/-! ## What the network decides

The functions below read the outcomes of the fetches directly off the network,
without running the page: they say in the words of the specification what each
helper is expected to compute, and the run lemmas further down show that the
code computes exactly that. -/

/-- The request `fetch(u, { method: 'HEAD', cache: 'no-cache' })`. -/
def headOf (u : String) : Request := { method := Method.HEAD, url := u }

/-- The request `fetch(u, { cache: 'no-cache' })`. -/
def getOf (u : String) : Request := { method := Method.GET, url := u }

/-- Existence of `url` when the check starts as fetch number `n`: the url is
truthy and the HEAD succeeds, or else the GET that follows it succeeds. -/
def specExists (net : Network) (n : Nat) (url : Option String) : Bool :=
  match url with
  | none => false
  | some u =>
    u != "" &&
      ((net n (headOf u)).succeeded ||
        (!(net n (headOf u)).succeeded && (net (n + 1) (getOf u)).succeeded))

/-- The requests an existence check of `url` issues when it starts as fetch
number `n`: none for a falsy url, the HEAD, and the GET only after a HEAD that
did not succeed. -/
def specRequests (net : Network) (n : Nat) (url : Option String) : List Request :=
  match url with
  | none => []
  | some u =>
    if u = "" then []
    else if (net n (headOf u)).succeeded then [headOf u]
    else [headOf u, getOf u]

/-- The lyrics text a fetch outcome yields: the trimmed body of a successful
response when it is not blank. -/
def specLyrics (out : FetchOutcome) : Option String :=
  match out with
  | FetchOutcome.rejected => none
  | FetchOutcome.resolved res =>
    if res.ok then
      match res.text with
      | some t => if jsTrim t = "" then none else some (jsTrim t)
      | none => none
    else none

/-- What the network decides for one manifest entry visited from fetch number
`start` on: the lyrics, the two existence checks, and the requests issued. -/
structure EntryTrace where
  start : Nat
  lyrics : Option String
  sourceOk : Bool
  baselineOk : Bool
  requests : List Request
deriving DecidableEq, Repr

/-- The trace of the entry `demoName`: the lyrics fetch comes first, then the
check of `source`, then the check of `baseline`. -/
def entryTrace (net : Network) (manifest : Manifest) (n : Nat) (demoName : String) :
    EntryTrace :=
  let record := recordOf manifest demoName
  let sourceReqs := specRequests net (n + 1) record.source
  let n2 := n + (sourceReqs.length + 1)
  { start := n,
    lyrics := specLyrics (net n (getOf (lyricsPath demoName))),
    sourceOk := specExists net (n + 1) record.source,
    baselineOk := specExists net n2 record.baseline,
    requests := getOf (lyricsPath demoName) :: sourceReqs ++ specRequests net n2 record.baseline }

/-- The traces of the entries `demoNames`, visited in order from fetch number
`n` on. -/
def manifestTrace (net : Network) (manifest : Manifest) : Nat → List String → List EntryTrace
  | _, [] => []
  | n, demoName :: rest =>
    entryTrace net manifest n demoName ::
      manifestTrace net manifest (n + (entryTrace net manifest n demoName).requests.length) rest

/-- The entries of a render that starts at index `index` and fetch number `n`:
index, key and trace of each. -/
def tracedEntries (net : Network) (manifest : Manifest) (index n : Nat)
    (demoNames : List String) : List ((Nat × String) × EntryTrace) :=
  (demoNames.enumFrom index).zip (manifestTrace net manifest n demoNames)

/-- The right-table rows of the entries whose `source` check succeeded. -/
def expectedRight (manifest : Manifest) (entries : List ((Nat × String) × EntryTrace)) :
    List Tr :=
  entries.filterMap (fun e =>
    if e.2.sourceOk then some (rightRow e.1.1 (recordOf manifest e.1.2)) else none)

/-- The left-table rows of the entries whose `baseline` check succeeded. -/
def expectedLeft (manifest : Manifest) (entries : List ((Nat × String) × EntryTrace)) :
    List Tr :=
  entries.filterMap (fun e =>
    if e.2.baselineOk then some (leftRow e.1.1 (recordOf manifest e.1.2) e.2.lyrics) else none)

/-- The rows an entry adds to a table body: `row` when its check succeeded. -/
def rowIf (ok : Bool) (row : Tr) : List Tr :=
  if ok then [row] else []

/-- The requests of a whole render, in the order they are issued. -/
def traceRequests (traces : List EntryTrace) : List Request :=
  traces.flatMap EntryTrace.requests

/-! ## Audio mutual exclusion

The audio elements of the document are numbered as they are created.  The state
records which of them are in the document, the `paused` flag of each, the
`play` listeners registered so far (each with the `audioElements` list its
closure captured), and how far `loadManifestAndRender` has come. -/

/-- An audio element of the document; `inTable` tells whether it sits inside
one of the two table bodies, whose content `renderTables` replaces. -/
structure AudioNode where
  id : Nat
  inTable : Bool
deriving DecidableEq, Repr

/-- How far `loadManifestAndRender` has come: still fetching the manifest,
inside the loop of `renderTables`, or returned. -/
inductive Phase where
  | loading
  | rendering
  | done
deriving DecidableEq, Repr

/-- The state of the page as far as playback is concerned. -/
structure Player where
  audios : List AudioNode
  paused : Nat → Bool
  listeners : List (Nat × List Nat)
  pendingTimers : Nat
  phase : Phase
  nextId : Nat

/-- What can happen on the page. -/
inductive Event where
  /-- A callback scheduled by `setupAudioMutualExclusion` runs. -/
  | timerFires
  /-- The manifest could not be loaded: `loadManifestAndRender` ends without
  rendering and without rebinding. -/
  | manifestFailed
  /-- A table body is missing: `renderTables` returns at once and
  `loadManifestAndRender` schedules the rebinding. -/
  | renderSkipped
  /-- The call `renderTables` clears both table bodies. -/
  | renderStarts
  /-- The call `appendChild` adds a row holding `audioCount` new audio elements. -/
  | rowAppended (audioCount : Nat)
  /-- The call `renderTables` returns and `loadManifestAndRender` schedules the
  rebinding. -/
  | renderEnds
  /-- The user starts playback of a paused element of the document. -/
  | userPlays (id : Nat)
  /-- The user pauses an element of the document. -/
  | userPauses (id : Nat)
deriving DecidableEq, Repr

/-- The identities of the audio elements in the document:
`document.querySelectorAll('audio')`. -/
def Player.ids (s : Player) : List Nat :=
  s.audios.map AudioNode.id

/-- The call `otherAudio.pause()`. -/
def pauseAudio (paused : Nat → Bool) (other : Nat) : Nat → Bool :=
  fun y => if y = other then true else paused y

/-- The `play` listener registered on `audio`, whose closure captured the list
`audioElements`: every other element of that list that is not paused is paused. -/
def playListener (audio : Nat) (audioElements : List Nat) (paused : Nat → Bool) : Nat → Bool :=
  audioElements.foldl
    (fun p otherAudio => if otherAudio ≠ audio ∧ p otherAudio = false then pauseAudio p otherAudio
      else p)
    paused

/-- The `play` event on `target`: its listeners run in registration order. -/
def dispatchPlay (target : Nat) (listeners : List (Nat × List Nat)) (paused : Nat → Bool) :
    Nat → Bool :=
  listeners.foldl
    (fun p l => if l.1 = target then playListener l.1 l.2 p else p)
    paused

/-- The callback of `setupAudioMutualExclusion`: a `play` listener is added to
every audio element of the document, all sharing the list taken now. -/
def bindListeners (s : Player) : Player :=
  { s with listeners := s.listeners ++ s.ids.map (fun audio => (audio, s.ids)) }

/-- The audio elements a new row brings: fresh, paused, inside a table. -/
def newAudios (nextId audioCount : Nat) : List AudioNode :=
  (List.range audioCount).map (fun i => { id := nextId + i, inTable := true })

/-- One step of the page; `none` when the event cannot happen in this state. -/
def step (ev : Event) (s : Player) : Option Player :=
  match ev with
  | Event.timerFires =>
    if 0 < s.pendingTimers then
      some { bindListeners s with pendingTimers := s.pendingTimers - 1 }
    else none
  | Event.manifestFailed =>
    if s.phase = Phase.loading then some { s with phase := Phase.done } else none
  | Event.renderSkipped =>
    if s.phase = Phase.loading then
      some { s with phase := Phase.done, pendingTimers := s.pendingTimers + 1 }
    else none
  | Event.renderStarts =>
    if s.phase = Phase.loading then
      some { s with phase := Phase.rendering,
                    audios := s.audios.filter (fun a => !a.inTable) }
    else none
  | Event.rowAppended audioCount =>
    if s.phase = Phase.rendering then
      some { s with audios := s.audios ++ newAudios s.nextId audioCount,
                    paused := fun y =>
                      if s.nextId ≤ y ∧ y < s.nextId + audioCount then true else s.paused y,
                    nextId := s.nextId + audioCount }
    else none
  | Event.renderEnds =>
    if s.phase = Phase.rendering then
      some { s with phase := Phase.done, pendingTimers := s.pendingTimers + 1 }
    else none
  | Event.userPlays id =>
    if id ∈ s.ids ∧ s.paused id = true then
      some { s with paused :=
        dispatchPlay id s.listeners (fun y => if y = id then false else s.paused y) }
    else none
  | Event.userPauses id =>
    if id ∈ s.ids then some { s with paused := pauseAudio s.paused id } else none

/-- A sequence of events, from left to right. -/
def run : List Event → Player → Option Player
  | [], s => some s
  | ev :: rest, s =>
    match step ev s with
    | some s1 => run rest s1
    | none => none

/-- The page when `init()` has returned: `outside` audio elements of the static
page lie outside the table bodies and `inTables` inside them, all paused; the
first binding callback is scheduled and the manifest is being fetched. -/
def Player.init (outside inTables : Nat) : Player :=
  { audios := (List.range outside).map (fun i => { id := i, inTable := false }) ++
      (List.range inTables).map (fun i => { id := outside + i, inTable := true }),
    paused := fun _ => true,
    listeners := [],
    pendingTimers := 1,
    phase := Phase.loading,
    nextId := outside + inTables }

/-- The number of audio elements of the document that are not paused. -/
def Player.playingCount (s : Player) : Nat :=
  (s.audios.filter (fun a => !s.paused a.id)).length

/-- Every audio element of the document has a `play` listener whose captured
list holds all audio elements of the document. -/
def Player.Covered (s : Player) : Prop :=
  ∀ a ∈ s.ids, ∃ l ∈ s.listeners, l.1 = a ∧ ∀ b ∈ s.ids, b ∈ l.2

/-- What every reachable state satisfies: outside the render loop the listeners
cover the document unless a binding callback is still to come, and the audio
elements of the document are distinct and older than `nextId`. -/
def Player.Inv (s : Player) : Prop :=
  (s.phase ≠ Phase.rendering → s.Covered ∨ 0 < s.pendingTimers) ∧
    s.ids.Nodup ∧ ∀ a ∈ s.ids, a < s.nextId

/-! ## Cells and examples -/

/-- The cell `td` is the audio cell of `field`: one `audio` element with
`controls`, `preload="metadata"` and the field as `src` when the field is
truthy, and no child at all otherwise. -/
def IsAudioCellFor (field : Option String) (td : Td) : Prop :=
  (∀ s, field = some s → s ≠ "" →
    ∃ el, td.children = [Node.audio el] ∧ el.src = s ∧
      ("controls", "") ∈ el.attributes ∧ ("preload", "metadata") ∈ el.attributes) ∧
  (truthy field = false → td.children = [])

/-- The manifest `{"a": {"source": "s.mp3", "baseline": "b.mp3"}}`. -/
def sampleManifest : Manifest :=
  [("a", some { source := some "s.mp3", baseline := some "b.mp3" })]

/-- A page with both table bodies, the right one holding a row of the static
page. -/
def sampleWorld : World :=
  { rightTableBody := some [{ dataRow := "static", cells := [] }],
    leftTableBody := some [] }

/-- A page whose left table body is missing. -/
def noLeftWorld : World :=
  { rightTableBody := some [{ dataRow := "static", cells := [] }],
    leftTableBody := none }

/-- A network on which every request succeeds, every body reading
`" la la \n"`. -/
def allOkNet : Network :=
  fun _ _ => FetchOutcome.resolved { ok := true, text := some " la la \n" }

/-- A network on which every HEAD request throws and every GET succeeds. -/
def headThrowsNet : Network :=
  fun _ req =>
    match req.method with
    | Method.HEAD => FetchOutcome.rejected
    | Method.GET => FetchOutcome.resolved { ok := true }

/-- A network that answers every request with a non-success status, as a
static host does for a missing file. -/
def notFoundNet : Network :=
  fun _ _ => FetchOutcome.resolved { ok := false }

/-- A network on which every request throws. -/
def offlineNet : Network :=
  fun _ _ => FetchOutcome.rejected

/-! ## Examples of runs -/

/-- A page without static audio elements whose render adds one row with two
audio elements; both binding callbacks have run. -/
def settledTrace : List Event :=
  [Event.timerFires, Event.renderStarts, Event.rowAppended 2, Event.renderEnds, Event.timerFires]

/-- The state the run `settledTrace` ends in. -/
def settledPlayer : Player :=
  (run settledTrace (Player.init 0 0)).getD (Player.init 0 0)

/-- The user starts the first audio element of `settledPlayer`, then the second. -/
def replayTrace : List Event :=
  [Event.userPlays 0, Event.userPlays 1]

/-- The state the run `replayTrace` ends in, from `settledPlayer`. -/
def replayedPlayer : Player :=
  (run replayTrace settledPlayer).getD settledPlayer

/-! ## Lemmas on `trim` -/

theorem trimChars_decompose (cs : List Char) :
    ∃ pre post, cs = pre ++ trimChars cs ++ post ∧
      (∀ c ∈ pre, isJsWhitespace c = true) ∧ (∀ c ∈ post, isJsWhitespace c = true) := by
  refine ⟨cs.takeWhile isJsWhitespace,
    ((cs.dropWhile isJsWhitespace).reverse.takeWhile isJsWhitespace).reverse, ?_, ?_, ?_⟩
  · have h1 := List.takeWhile_append_dropWhile isJsWhitespace cs
    have h2 := List.takeWhile_append_dropWhile isJsWhitespace
      (cs.dropWhile isJsWhitespace).reverse
    have h3 : cs.dropWhile isJsWhitespace =
        ((cs.dropWhile isJsWhitespace).reverse.dropWhile isJsWhitespace).reverse ++
          ((cs.dropWhile isJsWhitespace).reverse.takeWhile isJsWhitespace).reverse := by
      rw [← List.reverse_append, h2, List.reverse_reverse]
    unfold trimChars
    rw [List.append_assoc, ← h3, h1]
  · intro c hc
    exact List.mem_takeWhile_imp hc
  · intro c hc
    exact List.mem_takeWhile_imp (List.mem_reverse.mp hc)

theorem trimChars_ends (cs : List Char) :
    (∀ c, (trimChars cs).head? = some c → isJsWhitespace c = false) ∧
      (∀ c, (trimChars cs).getLast? = some c → isJsWhitespace c = false) := by
  constructor
  · intro c hc
    have hd := List.head?_dropWhile_not isJsWhitespace cs
    have h2 := List.takeWhile_append_dropWhile isJsWhitespace
      (cs.dropWhile isJsWhitespace).reverse
    have h3 : cs.dropWhile isJsWhitespace =
        trimChars cs ++
          ((cs.dropWhile isJsWhitespace).reverse.takeWhile isJsWhitespace).reverse := by
      unfold trimChars
      rw [← List.reverse_append, h2, List.reverse_reverse]
    rw [h3, List.head?_append, hc] at hd
    simpa using hd
  · intro c hc
    unfold trimChars at hc
    rw [List.getLast?_reverse] at hc
    have hd := List.head?_dropWhile_not isJsWhitespace (cs.dropWhile isJsWhitespace).reverse
    rw [hc] at hd
    simpa using hd

theorem trimChars_eq_nil_iff (cs : List Char) :
    trimChars cs = [] ↔ ∀ c ∈ cs, isJsWhitespace c = true := by
  constructor
  · intro h
    obtain ⟨pre, post, hcs, hpre, hpost⟩ := trimChars_decompose cs
    rw [h, List.append_nil] at hcs
    intro c hc
    rw [hcs] at hc
    rcases List.mem_append.mp hc with h1 | h1
    · exact hpre c h1
    · exact hpost c h1
  · intro h
    have hd : cs.dropWhile isJsWhitespace = [] := List.dropWhile_eq_nil_iff.mpr h
    simp [trimChars, hd]

theorem jsTrim_eq_empty_iff (t : String) :
    jsTrim t = "" ↔ ∀ c ∈ t.data, isJsWhitespace c = true := by
  rw [← trimChars_eq_nil_iff, String.ext_iff]
  rfl

/-! ## Run lemmas -/

theorem resourceExists_falsy (net : Network) (url : Option String) (w : World)
    (h : truthy url = false) : resourceExists net url w = (Except.ok false, w) := by
  cases url with
  | none => rfl
  | some u =>
    have hu : u = "" := by simpa [truthy] using h
    simp [resourceExists, hu, pure, JS.pure]

theorem resourceExists_truthy (net : Network) (u : String) (w : World) (hu : u ≠ "") :
    resourceExists net (some u) w =
      if (net w.requests.length (headOf u)).succeeded = true then
        (Except.ok true, { w with requests := w.requests ++ [headOf u] })
      else
        (Except.ok (net (w.requests.length + 1) (getOf u)).succeeded,
          { w with requests := w.requests ++ [headOf u, getOf u] }) := by
  cases h : net w.requests.length { method := Method.HEAD, url := u } with
  | rejected =>
    cases h2 : net (w.requests.length + 1) { method := Method.GET, url := u } with
    | rejected =>
      simp [resourceExists, hu, bind, JS.bind, JS.tryCatch, fetch, pure, JS.pure, headOf,
        getOf, FetchOutcome.succeeded, h, h2]
    | resolved r2 =>
      simp [resourceExists, hu, bind, JS.bind, JS.tryCatch, fetch, pure, JS.pure, headOf,
        getOf, FetchOutcome.succeeded, h, h2]
  | resolved r =>
    cases hr : r.ok with
    | true =>
      simp [resourceExists, hu, bind, JS.bind, JS.tryCatch, fetch, pure, JS.pure, headOf,
        getOf, FetchOutcome.succeeded, h, hr]
    | false =>
      cases h2 : net (w.requests.length + 1) { method := Method.GET, url := u } with
      | rejected =>
        simp [resourceExists, hu, bind, JS.bind, JS.tryCatch, fetch, pure, JS.pure, headOf,
          getOf, FetchOutcome.succeeded, h, h2, hr]
      | resolved r2 =>
        simp [resourceExists, hu, bind, JS.bind, JS.tryCatch, fetch, pure, JS.pure, headOf,
          getOf, FetchOutcome.succeeded, h, h2, hr]

/-- The code of `resourceExists` computes `specExists` and issues `specRequests`. -/
theorem resourceExists_run (net : Network) (url : Option String) (w : World) :
    resourceExists net url w =
      (Except.ok (specExists net w.requests.length url),
        { w with requests := w.requests ++ specRequests net w.requests.length url }) := by
  cases url with
  | none => simp [resourceExists, specExists, specRequests, pure, JS.pure]
  | some u =>
    by_cases hu : u = ""
    · simp [resourceExists, specExists, specRequests, pure, JS.pure, hu]
    · rw [resourceExists_truthy net u w hu]
      by_cases hh : (net w.requests.length (headOf u)).succeeded = true
      · simp [specExists, specRequests, hu, hh]
      · simp [specExists, specRequests, hu, hh]

theorem orDefault_some_empty (t : String) : orDefault (some t) "" = t := by
  by_cases h : t = ""
  · simp [orDefault, h]
  · simp [orDefault, h]

/-- The code of `fetchTextOrNull` computes `specLyrics` of its one fetch. -/
theorem fetchTextOrNull_run (net : Network) (url : String) (w : World) :
    fetchTextOrNull net url w =
      (Except.ok (specLyrics (net w.requests.length (getOf url))),
        { w with requests := w.requests ++ [getOf url] }) := by
  cases h : net w.requests.length { method := Method.GET, url := url } with
  | rejected =>
    simp [fetchTextOrNull, bind, JS.bind, JS.tryCatch, fetch, pure, JS.pure, getOf,
      specLyrics, h]
  | resolved r =>
    cases hr : r.ok with
    | false =>
      simp [fetchTextOrNull, bind, JS.bind, JS.tryCatch, fetch, pure, JS.pure, getOf,
        specLyrics, h, hr]
    | true =>
      cases ht : r.text with
      | none =>
        simp [fetchTextOrNull, bind, JS.bind, JS.tryCatch, fetch, pure, JS.pure, getOf,
          specLyrics, h, hr, ht, Response.readText, JS.throw]
      | some t =>
        simp [fetchTextOrNull, bind, JS.bind, JS.tryCatch, fetch, pure, JS.pure, getOf,
          specLyrics, h, hr, ht, Response.readText, orDefault_some_empty]
theorem renderEntry_run (net : Network) (manifest : Manifest) (index : Nat)
    (demoName : String) (w : World) :
    renderEntry net manifest index demoName w =
      (Except.ok (),
        { w with
          requests := w.requests ++ (entryTrace net manifest w.requests.length demoName).requests,
          rightTableBody := w.rightTableBody.map (fun rows => rows ++
            rowIf (entryTrace net manifest w.requests.length demoName).sourceOk
              (rightRow index (recordOf manifest demoName))),
          leftTableBody := w.leftTableBody.map (fun rows => rows ++
            rowIf (entryTrace net manifest w.requests.length demoName).baselineOk
              (leftRow index (recordOf manifest demoName)
                (entryTrace net manifest w.requests.length demoName).lyrics)) }) := by
  simp only [renderEntry, bind, JS.bind, fetchTextOrNull_run, resourceExists_run, entryTrace,
    List.length_append, List.length_singleton]
  cases hs : specExists net (w.requests.length + 1) (recordOf manifest demoName).source <;>
  cases hb : specExists net (w.requests.length +
      ((specRequests net (w.requests.length + 1) (recordOf manifest demoName).source).length + 1))
      (recordOf manifest demoName).baseline <;>
  simp [appendRight, appendLeft, pure, JS.pure, JS.bind, resourceExists_run, rowIf, hs, hb,
    List.append_assoc]

theorem tracedEntries_cons (net : Network) (manifest : Manifest) (index n : Nat)
    (demoName : String) (rest : List String) :
    tracedEntries net manifest index n (demoName :: rest) =
      ((index, demoName), entryTrace net manifest n demoName) ::
        tracedEntries net manifest (index + 1)
          (n + (entryTrace net manifest n demoName).requests.length) rest := by
  simp [tracedEntries, manifestTrace, List.enumFrom]

theorem expectedRight_cons (manifest : Manifest) (e : (Nat × String) × EntryTrace)
    (es : List ((Nat × String) × EntryTrace)) :
    expectedRight manifest (e :: es) =
      rowIf e.2.sourceOk (rightRow e.1.1 (recordOf manifest e.1.2)) ++
        expectedRight manifest es := by
  cases h : e.2.sourceOk <;> simp [expectedRight, rowIf, List.filterMap_cons, h]

theorem expectedLeft_cons (manifest : Manifest) (e : (Nat × String) × EntryTrace)
    (es : List ((Nat × String) × EntryTrace)) :
    expectedLeft manifest (e :: es) =
      rowIf e.2.baselineOk (leftRow e.1.1 (recordOf manifest e.1.2) e.2.lyrics) ++
        expectedLeft manifest es := by
  cases h : e.2.baselineOk <;> simp [expectedLeft, rowIf, List.filterMap_cons, h]

theorem renderLoop_run (net : Network) (manifest : Manifest) (demoNames : List String) :
    ∀ (index : Nat) (w : World),
      renderLoop net manifest index demoNames w =
        (Except.ok (),
          { w with
            requests := w.requests ++
              traceRequests (manifestTrace net manifest w.requests.length demoNames),
            rightTableBody := w.rightTableBody.map (fun rows => rows ++
              expectedRight manifest
                (tracedEntries net manifest index w.requests.length demoNames)),
            leftTableBody := w.leftTableBody.map (fun rows => rows ++
              expectedLeft manifest
                (tracedEntries net manifest index w.requests.length demoNames)) }) := by
  induction demoNames with
  | nil =>
    intro index w
    rcases w with ⟨reqs, warns, r, l, t⟩
    cases r <;> cases l <;>
    simp [renderLoop, pure, JS.pure, traceRequests, manifestTrace, tracedEntries, expectedRight,
      expectedLeft]
  | cons demoName rest ih =>
    intro index w
    rcases w with ⟨reqs, warns, r, l, t⟩
    simp only [renderLoop, bind, JS.bind, renderEntry_run]
    rw [ih]
    simp only [tracedEntries_cons, expectedRight_cons, expectedLeft_cons, manifestTrace,
      traceRequests, List.flatMap_cons, List.length_append, List.append_assoc, Option.map_map]
    cases r <;> cases l <;>
    simp [Function.comp, List.append_assoc]

/-! ## Lemmas on the listeners -/

theorem playListener_apply (audio : Nat) (audioElements : List Nat) :
    ∀ (paused : Nat → Bool) (y : Nat),
      playListener audio audioElements paused y =
        (paused y || (decide (y ∈ audioElements) && decide (y ≠ audio))) := by
  induction audioElements with
  | nil => intro paused y; simp [playListener]
  | cons x xs ih =>
    intro paused y
    have hfold : playListener audio (x :: xs) paused =
        playListener audio xs
          (if x ≠ audio ∧ paused x = false then pauseAudio paused x else paused) := by
      simp [playListener]
    rw [hfold, ih]
    by_cases hx : x ≠ audio ∧ paused x = false
    · rw [if_pos hx]
      by_cases hyx : y = x
      · subst hyx
        simp [pauseAudio, hx.1]
      · simp [pauseAudio, hyx]
    · rw [if_neg hx]
      by_cases hyx : y = x
      · subst hyx
        by_cases hya : y = audio
        · simp [hya]
        · have hp : paused y = true := by
            by_contra hne
            exact hx ⟨hya, by simpa using hne⟩
          simp [hp]
      · simp [hyx]

theorem dispatchPlay_apply (target : Nat) (listeners : List (Nat × List Nat)) :
    ∀ (paused : Nat → Bool) (y : Nat),
      dispatchPlay target listeners paused y =
        (paused y || (decide (y ≠ target) &&
          listeners.any (fun l => decide (l.1 = target) && decide (y ∈ l.2)))) := by
  induction listeners with
  | nil => intro paused y; simp [dispatchPlay]
  | cons l ls ih =>
    intro paused y
    have hfold : dispatchPlay target (l :: ls) paused =
        dispatchPlay target ls (if l.1 = target then playListener l.1 l.2 paused else paused) := by
      simp [dispatchPlay]
    rw [hfold, ih]
    by_cases hl : l.1 = target
    · rw [if_pos hl, playListener_apply]
      by_cases hy : y = target
      · simp [hl, hy]
      · by_cases hm : y ∈ l.2
        · simp [hl, hy, hm]
        · simp [hl, hy, hm]
    · rw [if_neg hl]
      simp [hl]

/-- A play event leaves the flag of its target alone. -/
theorem dispatchPlay_target (target : Nat) (listeners : List (Nat × List Nat))
    (paused : Nat → Bool) : dispatchPlay target listeners paused target = paused target := by
  rw [dispatchPlay_apply]
  simp

/-- A play event pauses every other element that one of the target's listeners
captured. -/
theorem dispatchPlay_other (target : Nat) (listeners : List (Nat × List Nat))
    (paused : Nat → Bool) (l : Nat × List Nat) (hl : l ∈ listeners) (ht : l.1 = target)
    (b : Nat) (hb : b ∈ l.2) (hne : b ≠ target) :
    dispatchPlay target listeners paused b = true := by
  rw [dispatchPlay_apply]
  have hany : listeners.any (fun l => decide (l.1 = target) && decide (b ∈ l.2)) = true := by
    rw [List.any_eq_true]
    exact ⟨l, hl, by simp [ht, hb]⟩
  simp [hne, hany]

theorem length_playing_le_one (l : List AudioNode) (p : Nat → Bool) (a : Nat)
    (hnd : (l.map AudioNode.id).Nodup) (h : ∀ x ∈ l, x.id ≠ a → p x.id = true) :
    (l.filter (fun x => !p x.id)).length ≤ 1 := by
  induction l with
  | nil => simp
  | cons x xs ih =>
    rw [List.map_cons, List.nodup_cons] at hnd
    have hxs : ∀ y ∈ xs, y.id ≠ a → p y.id = true :=
      fun y hy => h y (List.mem_cons_of_mem _ hy)
    by_cases hp : p x.id = true
    · simp only [List.filter_cons, hp, Bool.not_true, Bool.false_eq_true, if_false]
      exact ih hnd.2 hxs
    · have hxa : x.id = a := by
        by_contra hne
        exact hp (h x (List.mem_cons_self _ _) hne)
      have hnil : xs.filter (fun y => !p y.id) = [] := by
        rw [List.filter_eq_nil_iff]
        intro y hy
        have hya : y.id ≠ a := by
          intro hya
          exact hnd.1 (List.mem_map.mpr ⟨y, hy, by rw [hya, hxa]⟩)
        simp [hxs y hy hya]
      simp [List.filter_cons, hp, hnil]

theorem length_playing_mono (l : List AudioNode) (p q : Nat → Bool)
    (h : ∀ y, p y = true → q y = true) :
    (l.filter (fun x => !q x.id)).length ≤ (l.filter (fun x => !p x.id)).length := by
  apply List.Sublist.length_le
  apply List.monotone_filter_right
  intro x hx
  cases hq : q x.id with
  | true => simp [hq] at hx
  | false =>
    cases hp : p x.id with
    | true => rw [h _ hp] at hq; cases hq
    | false => rfl

/-! ## The invariant of the player -/

theorem init_inv (outside inTables : Nat) : (Player.init outside inTables).Inv := by
  refine ⟨fun _ => Or.inr (by simp [Player.init]), ?_, ?_⟩
  · simp only [Player.ids, Player.init, List.map_append, List.map_map]
    rw [List.nodup_append]
    refine ⟨?_, ?_, ?_⟩
    · exact (List.nodup_range outside).map (fun i j h => by simpa using h)
    · exact (List.nodup_range inTables).map (fun i j h => by simpa using h)
    · intro x hx hy
      simp only [List.mem_map, List.mem_range, Function.comp] at hx hy
      obtain ⟨i, hi, rfl⟩ := hx
      obtain ⟨j, _, hj⟩ := hy
      omega
  · intro a ha
    simp only [Player.ids, Player.init, List.map_append, List.map_map, List.mem_append,
      List.mem_map, List.mem_range, Function.comp] at ha
    simp only [Player.init]
    rcases ha with ⟨i, hi, rfl⟩ | ⟨i, hi, rfl⟩ <;> omega

theorem bindListeners_covered (s : Player) : (bindListeners s).Covered := by
  intro a ha
  refine ⟨(a, s.ids), ?_, rfl, fun b hb => hb⟩
  simp only [bindListeners, List.mem_append, List.mem_map]
  exact Or.inr ⟨a, ha, rfl⟩

theorem step_inv (ev : Event) (s s1 : Player) (hinv : s.Inv) (hstep : step ev s = some s1) :
    s1.Inv := by
  obtain ⟨hcov, hnd, hlt⟩ := hinv
  cases ev with
  | timerFires =>
    simp only [step] at hstep
    split_ifs at hstep with h
    cases hstep
    exact ⟨fun _ => Or.inl (bindListeners_covered s), hnd, hlt⟩
  | manifestFailed =>
    simp only [step] at hstep
    split_ifs at hstep with h
    cases hstep
    exact ⟨fun _ => hcov (by simp [h]), hnd, hlt⟩
  | renderSkipped =>
    simp only [step] at hstep
    split_ifs at hstep with h
    cases hstep
    exact ⟨fun _ => Or.inr (Nat.succ_pos _), hnd, hlt⟩
  | renderStarts =>
    simp only [step] at hstep
    split_ifs at hstep with h
    cases hstep
    refine ⟨fun hne => absurd rfl hne, ?_, ?_⟩
    · exact hnd.sublist ((List.filter_sublist _).map _)
    · intro a ha
      exact hlt a (((List.filter_sublist _).map _).subset ha)
  | rowAppended audioCount =>
    simp only [step] at hstep
    split_ifs at hstep with h
    cases hstep
    refine ⟨fun hne => absurd h hne, ?_, ?_⟩
    · simp only [Player.ids, newAudios, List.map_append, List.map_map]
      rw [List.nodup_append]
      refine ⟨hnd, ?_, ?_⟩
      · exact (List.nodup_range audioCount).map (fun i j h => by simpa using h)
      · intro x hx hy
        simp only [List.mem_map, List.mem_range, Function.comp] at hy
        obtain ⟨j, _, hj⟩ := hy
        have := hlt x hx
        omega
    · intro a ha
      simp only [Player.ids, newAudios, List.map_append, List.map_map, List.mem_append,
        List.mem_map, List.mem_range, Function.comp] at ha
      rcases ha with ha | ⟨i, hi, rfl⟩
      · have := hlt a (by simpa [Player.ids] using ha)
        simp only
        omega
      · simp only
        omega
  | renderEnds =>
    simp only [step] at hstep
    split_ifs at hstep with h
    cases hstep
    exact ⟨fun _ => Or.inr (Nat.succ_pos _), hnd, hlt⟩
  | userPlays id =>
    simp only [step] at hstep
    split_ifs at hstep with h
    cases hstep
    exact ⟨hcov, hnd, hlt⟩
  | userPauses id =>
    simp only [step] at hstep
    split_ifs at hstep with h
    cases hstep
    exact ⟨hcov, hnd, hlt⟩

theorem run_inv (evs : List Event) : ∀ (s s1 : Player), s.Inv → run evs s = some s1 → s1.Inv := by
  induction evs with
  | nil =>
    intro s s1 hinv hrun
    simp only [run, Option.some.injEq] at hrun
    exact hrun ▸ hinv
  | cons ev rest ih =>
    intro s s1 hinv hrun
    simp only [run] at hrun
    cases hstep : step ev s with
    | none => rw [hstep] at hrun; cases hrun
    | some s2 =>
      rw [hstep] at hrun
      exact ih s2 s1 (step_inv ev s s2 hinv hstep) hrun

/-- Once the render is over and every binding callback has run, the listeners
cover the document. -/
theorem settled_covered (outside inTables : Nat) (evs : List Event) (s : Player)
    (hreach : run evs (Player.init outside inTables) = some s)
    (hdone : s.phase = Phase.done) (hpend : s.pendingTimers = 0) : s.Covered := by
  have hinv := run_inv evs _ s (init_inv outside inTables) hreach
  rcases hinv.1 (by simp [hdone]) with h | h
  · exact h
  · omega

theorem userPlays_exclusive (s s1 : Player) (a : Nat) (hcov : s.Covered)
    (hstep : step (Event.userPlays a) s = some s1) :
    s1.audios = s.audios ∧ s1.listeners = s.listeners ∧ s1.phase = s.phase ∧
      s1.pendingTimers = s.pendingTimers ∧ s1.paused a = false ∧
      ∀ b ∈ s.ids, b ≠ a → s1.paused b = true := by
  simp only [step] at hstep
  split_ifs at hstep with h
  cases hstep
  refine ⟨rfl, rfl, rfl, rfl, ?_, ?_⟩
  · simp [dispatchPlay_target]
  · intro b hb hne
    obtain ⟨l, hl, hla, hall⟩ := hcov a h.1
    exact dispatchPlay_other a s.listeners _ l hl hla b (hall b hb) hne

theorem settled_step (ev : Event) (s s1 : Player) (hcov : s.Covered) (hnd : s.ids.Nodup)
    (hdone : s.phase = Phase.done) (hpend : s.pendingTimers = 0)
    (hstep : step ev s = some s1) :
    (s1.Covered ∧ s1.ids.Nodup ∧ s1.phase = Phase.done ∧ s1.pendingTimers = 0) ∧
      ((∃ a, ev = Event.userPlays a) → s1.playingCount ≤ 1) ∧
      (s.playingCount ≤ 1 → s1.playingCount ≤ 1) := by
  cases ev with
  | timerFires => simp [step, hpend] at hstep
  | manifestFailed => simp [step, hdone] at hstep
  | renderSkipped => simp [step, hdone] at hstep
  | renderStarts => simp [step, hdone] at hstep
  | rowAppended audioCount => simp [step, hdone] at hstep
  | renderEnds => simp [step, hdone] at hstep
  | userPlays a =>
    obtain ⟨haud, hlis, hph, hpt, _, hothers⟩ := userPlays_exclusive s s1 a hcov hstep
    have hids : s1.ids = s.ids := by simp [Player.ids, haud]
    have hcount : s1.playingCount ≤ 1 := by
      unfold Player.playingCount
      apply length_playing_le_one s1.audios s1.paused a
      · have hnd1 : s1.ids.Nodup := by rw [hids]; exact hnd
        exact hnd1
      · intro x hx hne
        apply hothers x.id _ hne
        rw [← hids]
        exact List.mem_map.mpr ⟨x, hx, rfl⟩
    refine ⟨⟨?_, by rw [hids]; exact hnd, hph.trans hdone, hpt.trans hpend⟩,
      fun _ => hcount, fun _ => hcount⟩
    intro b hb
    rw [hids] at hb
    obtain ⟨l, hl, hlb, hall⟩ := hcov b hb
    exact ⟨l, hlis ▸ hl, hlb, fun c hc => hall c (hids ▸ hc)⟩
  | userPauses a =>
    simp only [step] at hstep
    split_ifs at hstep with h
    cases hstep
    refine ⟨⟨hcov, hnd, hdone, hpend⟩, ?_, fun hle => ?_⟩
    · rintro ⟨b, hb⟩
      cases hb
    refine le_trans ?_ hle
    unfold Player.playingCount
    apply length_playing_mono
    intro y hy
    simp [pauseAudio, hy]

theorem settled_run (later : List Event) :
    ∀ (s s2 : Player), s.Covered → s.ids.Nodup → s.phase = Phase.done → s.pendingTimers = 0 →
      run later s = some s2 →
      (s.playingCount ≤ 1 ∨ ∃ a, Event.userPlays a ∈ later) → s2.playingCount ≤ 1 := by
  induction later with
  | nil =>
    intro s s2 _ _ _ _ hrun hor
    simp only [run, Option.some.injEq] at hrun
    subst hrun
    rcases hor with h | ⟨a, ha⟩
    · exact h
    · cases ha
  | cons ev rest ih =>
    intro s s2 hcov hnd hdone hpend hrun hor
    simp only [run] at hrun
    cases hstep : step ev s with
    | none => rw [hstep] at hrun; cases hrun
    | some s1 =>
      rw [hstep] at hrun
      obtain ⟨⟨hcov1, hnd1, hdone1, hpend1⟩, hplay, hkeep⟩ :=
        settled_step ev s s1 hcov hnd hdone hpend hstep
      apply ih s1 s2 hcov1 hnd1 hdone1 hpend1 hrun
      rcases hor with h | ⟨a, ha⟩
      · exact Or.inl (hkeep h)
      · rcases List.mem_cons.mp ha with heq | hmem
        · exact Or.inl (hplay ⟨a, heq.symm⟩)
        · exact Or.inr ⟨a, hmem⟩

/-! ## The whole render -/

theorem renderTables_run (net : Network) (manifest : Manifest) (w : World)
    (right0 left0 : List Tr)
    (hr : w.rightTableBody = some right0) (hl : w.leftTableBody = some left0) :
    renderTables net (Json.object manifest) w =
      (Except.ok (),
        { w with
          requests := w.requests ++
            traceRequests (manifestTrace net manifest w.requests.length (objectKeys manifest)),
          rightTableBody := some (expectedRight manifest
            (tracedEntries net manifest 0 w.requests.length (objectKeys manifest))),
          leftTableBody := some (expectedLeft manifest
            (tracedEntries net manifest 0 w.requests.length (objectKeys manifest))) }) := by
  rcases w with ⟨reqs, warns, r, l, t⟩
  simp only at hr hl
  subst hr hl
  simp [renderTables, bind, JS.bind, clearTables, renderLoop_run]

theorem manifestTrace_length (net : Network) (manifest : Manifest) (demoNames : List String) :
    ∀ n, (manifestTrace net manifest n demoNames).length = demoNames.length := by
  induction demoNames with
  | nil => intro n; rfl
  | cons k ks ih => intro n; simp [manifestTrace, ih]

theorem tracedEntries_keys (net : Network) (manifest : Manifest) (index n : Nat)
    (demoNames : List String) :
    (tracedEntries net manifest index n demoNames).map Prod.fst = demoNames.enumFrom index := by
  unfold tracedEntries
  apply List.map_fst_zip
  simp [manifestTrace_length]

/-- Every traced entry is the trace of its own key, taken at its own start. -/
theorem tracedEntries_mem (net : Network) (manifest : Manifest) (demoNames : List String) :
    ∀ (index n : Nat) (e : (Nat × String) × EntryTrace),
      e ∈ tracedEntries net manifest index n demoNames →
        e.2 = entryTrace net manifest e.2.start e.1.2 ∧ e.1.2 ∈ demoNames ∧ n ≤ e.2.start := by
  induction demoNames with
  | nil => intro index n e he; simp [tracedEntries] at he
  | cons k ks ih =>
    intro index n e he
    rw [tracedEntries_cons] at he
    rcases List.mem_cons.mp he with heq | hmem
    · subst heq
      exact ⟨rfl, List.mem_cons_self _ _, Nat.le_refl _⟩
    · obtain ⟨h1, h2, h3⟩ := ih _ _ e hmem
      exact ⟨h1, List.mem_cons_of_mem _ h2, by omega⟩

theorem mem_expectedRight (manifest : Manifest) (entries : List ((Nat × String) × EntryTrace))
    (row : Tr) :
    row ∈ expectedRight manifest entries ↔
      ∃ e ∈ entries, e.2.sourceOk = true ∧ row = rightRow e.1.1 (recordOf manifest e.1.2) := by
  simp only [expectedRight, List.mem_filterMap]
  constructor
  · rintro ⟨e, he, h⟩
    cases hs : e.2.sourceOk with
    | false => simp [hs] at h
    | true => simp [hs] at h; exact ⟨e, he, hs, h.symm⟩
  · rintro ⟨e, he, hs, rfl⟩
    exact ⟨e, he, by simp [hs]⟩

theorem mem_expectedLeft (manifest : Manifest) (entries : List ((Nat × String) × EntryTrace))
    (row : Tr) :
    row ∈ expectedLeft manifest entries ↔
      ∃ e ∈ entries, e.2.baselineOk = true ∧
        row = leftRow e.1.1 (recordOf manifest e.1.2) e.2.lyrics := by
  simp only [expectedLeft, List.mem_filterMap]
  constructor
  · rintro ⟨e, he, h⟩
    cases hs : e.2.baselineOk with
    | false => simp [hs] at h
    | true => simp [hs] at h; exact ⟨e, he, hs, h.symm⟩
  · rintro ⟨e, he, hs, rfl⟩
    exact ⟨e, he, by simp [hs]⟩

theorem audioCell_isAudioCellFor (field : Option String) :
    IsAudioCellFor field (audioCell field) := by
  constructor
  · intro s hs hne
    subst hs
    exact ⟨mkAudio s, by simp [audioCell, hne], rfl, by simp [mkAudio], by simp [mkAudio]⟩
  · intro h
    cases field with
    | none => rfl
    | some s =>
      have hs : s = "" := by simpa [truthy] using h
      simp [audioCell, hs]

theorem lyricCell_textContent (lyricsText : Option String) :
    (lyricCell lyricsText).textContent = orDefault lyricsText "Enter lyrics here" := by
  simp [lyricCell, Td.textContent]

theorem orDefault_ne_empty (x : Option String) (fallback : String) (h : fallback ≠ "") :
    orDefault x fallback ≠ "" := by
  cases x with
  | none => simpa [orDefault] using h
  | some s =>
    by_cases hs : s = ""
    · simpa [orDefault, hs] using h
    · simp [orDefault, hs]

theorem specExists_falsy (net : Network) (n : Nat) (url : Option String)
    (h : truthy url = false) : specExists net n url = false := by
  cases url with
  | none => rfl
  | some u =>
    have hu : u = "" := by simpa [truthy] using h
    simp [specExists, hu]

theorem not_succeeded_cases (out : FetchOutcome) (h : out.succeeded = false) :
    out.threw = true ∨ ∃ res, out = FetchOutcome.resolved res ∧ res.ok = false := by
  cases out with
  | rejected => exact Or.inl rfl
  | resolved res => exact Or.inr ⟨res, rfl, by simpa [FetchOutcome.succeeded] using h⟩

theorem succeeded_false_of_cases (out : FetchOutcome)
    (h : out.threw = true ∨ ∃ res, out = FetchOutcome.resolved res ∧ res.ok = false) :
    out.succeeded = false := by
  rcases h with h | ⟨res, rfl, hres⟩
  · cases out with
    | rejected => rfl
    | resolved res => simp [FetchOutcome.threw] at h
  · simpa [FetchOutcome.succeeded] using hres

theorem specLyrics_text (out : FetchOutcome) :
    (∀ res t, out = FetchOutcome.resolved res → res.ok = true → res.text = some t →
      (¬ ∀ c ∈ t.data, isJsWhitespace c = true) →
      orDefault (specLyrics out) "Enter lyrics here" = jsTrim t) ∧
    ((out = FetchOutcome.rejected ∨ ∃ res, out = FetchOutcome.resolved res ∧
        (res.ok = false ∨ res.text = none ∨
          ∃ t, res.text = some t ∧ ∀ c ∈ t.data, isJsWhitespace c = true)) →
      orDefault (specLyrics out) "Enter lyrics here" = "Enter lyrics here") := by
  constructor
  · intro res t hout hok htext hblank
    have hne : jsTrim t ≠ "" := fun h => hblank ((jsTrim_eq_empty_iff t).mp h)
    subst hout
    simp [specLyrics, hok, htext, hne, orDefault]
  · rintro (h | ⟨res, rfl, h⟩)
    · subst h
      simp [specLyrics, orDefault]
    · rcases h with h | h | ⟨t, ht, hblank⟩
      · simp [specLyrics, h, orDefault]
      · cases hok : res.ok <;> simp [specLyrics, h, hok, orDefault]
      · have he : jsTrim t = "" := (jsTrim_eq_empty_iff t).mpr hblank
        cases hok : res.ok <;> simp [specLyrics, ht, hok, he, orDefault]

theorem loadManifest_rejected (net : Network) (w : World)
    (h : net w.requests.length (getOf "demos.json") = FetchOutcome.rejected) :
    loadManifestAndRender net w =
      (Except.ok (), { w with requests := w.requests ++ [getOf "demos.json"],
                              warnings := w.warnings ++ [manifestWarning] }) := by
  simp only [getOf] at h
  simp [loadManifestAndRender, bind, JS.bind, JS.tryCatch, fetch, consoleWarn, getOf, h]

theorem loadManifest_nonSuccess (net : Network) (w : World) (res : Response)
    (h : net w.requests.length (getOf "demos.json") = FetchOutcome.resolved res)
    (hok : res.ok = false) :
    loadManifestAndRender net w =
      (Except.ok (), { w with requests := w.requests ++ [getOf "demos.json"] }) := by
  simp only [getOf] at h
  simp [loadManifestAndRender, bind, JS.bind, JS.tryCatch, fetch, pure, JS.pure, getOf, h, hok]

theorem loadManifest_parseError (net : Network) (w : World) (res : Response)
    (h : net w.requests.length (getOf "demos.json") = FetchOutcome.resolved res)
    (hok : res.ok = true) (hjson : res.json = none) :
    loadManifestAndRender net w =
      (Except.ok (), { w with requests := w.requests ++ [getOf "demos.json"],
                              warnings := w.warnings ++ [manifestWarning] }) := by
  simp only [getOf] at h
  simp [loadManifestAndRender, bind, JS.bind, JS.tryCatch, fetch, consoleWarn, getOf, h, hok,
    hjson, Response.readJson, JS.throw]

/-! ## The existence check -/

/-- C2: the check `resourceExists(url)` returns `true` exactly when the url is present
and not empty and either the HEAD succeeds, or the HEAD throws or has a
non-success status and the GET that follows succeeds; it issues no request for
an absent or empty url, the HEAD alone when the HEAD succeeds, and the HEAD then
the GET otherwise; and an entry whose `source` fails both the HEAD and the GET
leaves the right table body as it was. -/
theorem resourceExists_head_then_get (net : Network) (url : Option String) (w : World) :
    (∃ b, (resourceExists net url w).1 = Except.ok b ∧
      (b = true ↔ ∃ u, url = some u ∧ u ≠ "" ∧
        ((net w.requests.length (headOf u)).succeeded = true ∨
          (((net w.requests.length (headOf u)).threw = true ∨
              ∃ res, net w.requests.length (headOf u) = FetchOutcome.resolved res ∧
                res.ok = false) ∧
            (net (w.requests.length + 1) (getOf u)).succeeded = true)))) ∧
    (truthy url = false → (resourceExists net url w).2 = w) ∧
    (∀ u, url = some u → u ≠ "" →
      ((net w.requests.length (headOf u)).succeeded = true →
        (resourceExists net url w).2.requests = w.requests ++ [headOf u]) ∧
      ((net w.requests.length (headOf u)).succeeded = false →
        (resourceExists net url w).2.requests = w.requests ++ [headOf u, getOf u])) ∧
    (∀ (manifest : Manifest) (index : Nat) (demoName : String),
      (∀ u, (recordOf manifest demoName).source = some u →
        (net (w.requests.length + 1) (headOf u)).succeeded = false ∧
          (net (w.requests.length + 2) (getOf u)).succeeded = false) →
      (renderEntry net manifest index demoName w).2.rightTableBody = w.rightTableBody) := by
  refine ⟨⟨specExists net w.requests.length url, by rw [resourceExists_run], ?_⟩, ?_, ?_, ?_⟩
  · cases url with
    | none => simp [specExists]
    | some u =>
      by_cases hu : u = ""
      · simp [specExists, hu]
      · cases hh : (net w.requests.length (headOf u)).succeeded with
        | true => simp [specExists, hu, hh]
        | false =>
          have hc := not_succeeded_cases _ hh
          simp only [specExists, hh, Bool.false_or, Bool.not_false, Bool.true_and,
            Option.some.injEq, exists_eq_left', Bool.false_eq_true, false_or]
          constructor
          · intro h
            simp only [Bool.and_eq_true, bne_iff_ne, ne_eq] at h
            exact ⟨hu, hc, h.2⟩
          · rintro ⟨_, _, hg⟩
            simp [hu, hg]
  · intro h
    rw [resourceExists_falsy net url w h]
  · intro u hurl hu
    subst hurl
    rw [resourceExists_truthy net u w hu]
    constructor
    · intro hh
      simp [hh]
    · intro hh
      simp [hh]
  · intro manifest index demoName hfail
    rw [renderEntry_run]
    have hs : (entryTrace net manifest w.requests.length demoName).sourceOk = false := by
      simp only [entryTrace]
      cases hsrc : (recordOf manifest demoName).source with
      | none => rfl
      | some u =>
        obtain ⟨h1, h2⟩ := hfail u hsrc
        simp [specExists, h1, h2]
    cases hr : w.rightTableBody <;> simp [hs, rowIf, hr]

/-- C3 (as stated, refuted): the HEAD request of the check throws, and the check reports that the
resource exists. -/
theorem head_exception_yet_exists :
    (headThrowsNet 0 (headOf "a.mp3")).threw = true ∧
      (resourceExists headThrowsNet (some "a.mp3") {}).1 = Except.ok true := by
  decide

/-- C3 (amended): the check `resourceExists(url)` never throws; when its HEAD request throws,
its result is whether the GET request that follows succeeds; and when its GET
request throws, it reports that the resource does not exist. -/
theorem resourceExists_never_throws (net : Network) (url : Option String) (w : World) :
    ∃ b, (resourceExists net url w).1 = Except.ok b ∧
      (∀ u, url = some u → u ≠ "" →
        (net w.requests.length (headOf u)).threw = true →
        b = (net (w.requests.length + 1) (getOf u)).succeeded) ∧
      (∀ u, url = some u → u ≠ "" →
        (net w.requests.length (headOf u)).succeeded = false →
        (net (w.requests.length + 1) (getOf u)).threw = true →
        b = false) := by
  refine ⟨specExists net w.requests.length url, by rw [resourceExists_run], ?_, ?_⟩
  · intro u hurl hu hthrew
    subst hurl
    have hh := succeeded_false_of_cases _ (Or.inl hthrew)
    simp [specExists, hu, hh]
  · intro u hurl hu hh hthrew
    subst hurl
    have hg := succeeded_false_of_cases _ (Or.inl hthrew)
    simp [specExists, hh, hg]

/-! ## Loading the manifest -/

/-- C4: when the fetch of `demos.json` throws, or answers with a non-success status, or
its body does not parse, `loadManifestAndRender` returns without throwing, both
table bodies are what they were, and nothing but the manifest was fetched and no
rebinding was scheduled. -/
theorem manifest_failure_renders_nothing (net : Network) (w : World)
    (hfail : net w.requests.length (getOf "demos.json") = FetchOutcome.rejected ∨
      ∃ res, net w.requests.length (getOf "demos.json") = FetchOutcome.resolved res ∧
        (res.ok = false ∨ res.json = none)) :
    (loadManifestAndRender net w).1 = Except.ok () ∧
      (loadManifestAndRender net w).2.rightTableBody = w.rightTableBody ∧
      (loadManifestAndRender net w).2.leftTableBody = w.leftTableBody ∧
      (loadManifestAndRender net w).2.requests = w.requests ++ [getOf "demos.json"] ∧
      (loadManifestAndRender net w).2.bindTimers = w.bindTimers := by
  rcases hfail with h | ⟨res, h, hres⟩
  · rw [loadManifest_rejected net w h]
    exact ⟨rfl, rfl, rfl, rfl, rfl⟩
  · cases hok : res.ok with
    | false =>
      rw [loadManifest_nonSuccess net w res h hok]
      exact ⟨rfl, rfl, rfl, rfl, rfl⟩
    | true =>
      have hjson : res.json = none := by
        rcases hres with h1 | h1
        · rw [hok] at h1; cases h1
        · exact h1
      rw [loadManifest_parseError net w res h hok hjson]
      exact ⟨rfl, rfl, rfl, rfl, rfl⟩

theorem manifest_failure_renders_nothing_witness :
    (offlineNet sampleWorld.requests.length (getOf "demos.json") = FetchOutcome.rejected ∨
      ∃ res, offlineNet sampleWorld.requests.length (getOf "demos.json") =
          FetchOutcome.resolved res ∧ (res.ok = false ∨ res.json = none)) ∧
    ((loadManifestAndRender offlineNet sampleWorld).1 = Except.ok () ∧
      (loadManifestAndRender offlineNet sampleWorld).2.rightTableBody =
        sampleWorld.rightTableBody ∧
      (loadManifestAndRender offlineNet sampleWorld).2.leftTableBody =
        sampleWorld.leftTableBody ∧
      (loadManifestAndRender offlineNet sampleWorld).2.requests =
        sampleWorld.requests ++ [getOf "demos.json"] ∧
      (loadManifestAndRender offlineNet sampleWorld).2.bindTimers = sampleWorld.bindTimers) :=
  ⟨Or.inl rfl, manifest_failure_renders_nothing offlineNet sampleWorld (Or.inl rfl)⟩

/-- C5: evaluated on a manifest fetch that answers with a non-success status,
`loadManifestAndRender` returns without throwing and leaves the tables alone,
and the console holds no warning; on a manifest fetch that throws, the
console holds the warning. -/
theorem non_success_manifest_is_silent :
    loadManifestAndRender notFoundNet sampleWorld =
        (Except.ok (), { sampleWorld with requests := [getOf "demos.json"] }) ∧
      (loadManifestAndRender notFoundNet sampleWorld).2.warnings = [] ∧
      (loadManifestAndRender offlineNet sampleWorld).2.warnings = [manifestWarning] := by
  decide

/-! ## Missing table bodies -/

/-- C10: when the right or the left table body is missing from the document,
`renderTables` returns without throwing and leaves the page exactly as it was:
no request is issued, no row is created, and the table body that is present
keeps its content. -/
theorem renderTables_missing_table (net : Network) (manifest : Json) (w : World)
    (h : w.rightTableBody = none ∨ w.leftTableBody = none) :
    renderTables net manifest w = (Except.ok (), w) := by
  rcases w with ⟨reqs, warns, r, l, t⟩
  cases r <;> cases l <;> simp [renderTables] at h ⊢

theorem renderTables_missing_table_witness :
    (noLeftWorld.rightTableBody = none ∨ noLeftWorld.leftTableBody = none) ∧
      renderTables allOkNet (Json.object sampleManifest) noLeftWorld = (Except.ok (), noLeftWorld) :=
  ⟨Or.inr rfl,
    renderTables_missing_table allOkNet (Json.object sampleManifest) noLeftWorld (Or.inr rfl)⟩

/-! ## The rows of the two tables -/

/-- C1: with both table bodies present, `renderTables` returns without throwing; the
traced entries are the manifest's keys in `Object.keys` order, each with its
index, and their two flags are what the existence checks of `source` and
`baseline` return when the loop reaches the entry; the right table body then
holds exactly the rows of the entries whose `source` check succeeded and the
left one exactly the rows of the entries whose `baseline` check succeeded, in
that order and whatever the bodies held before.  An empty manifest leaves both
bodies empty, and a single entry with an existing `source` and no `baseline`
yields its right row only. -/
theorem renderTables_rows (net : Network) (manifest : Manifest) (w : World)
    (right0 left0 : List Tr)
    (hr : w.rightTableBody = some right0) (hl : w.leftTableBody = some left0) :
    (renderTables net (Json.object manifest) w).1 = Except.ok () ∧
    (tracedEntries net manifest 0 w.requests.length (objectKeys manifest)).map Prod.fst =
      (objectKeys manifest).enumFrom 0 ∧
    (∀ e ∈ tracedEntries net manifest 0 w.requests.length (objectKeys manifest),
      ∀ w1 : World, w1.requests.length = e.2.start + 1 →
        (resourceExists net (recordOf manifest e.1.2).source w1).1 = Except.ok e.2.sourceOk ∧
        (resourceExists net (recordOf manifest e.1.2).baseline
          (resourceExists net (recordOf manifest e.1.2).source w1).2).1 =
            Except.ok e.2.baselineOk) ∧
    (renderTables net (Json.object manifest) w).2.rightTableBody =
      some (expectedRight manifest
        (tracedEntries net manifest 0 w.requests.length (objectKeys manifest))) ∧
    (renderTables net (Json.object manifest) w).2.leftTableBody =
      some (expectedLeft manifest
        (tracedEntries net manifest 0 w.requests.length (objectKeys manifest))) ∧
    (manifest = [] →
      (renderTables net (Json.object manifest) w).2.rightTableBody = some [] ∧
        (renderTables net (Json.object manifest) w).2.leftTableBody = some []) ∧
    (∀ demoName record, manifest = [(demoName, some record)] →
      truthy record.baseline = false →
      (resourceExists net record.source
        { w with requests := w.requests ++ [getOf (lyricsPath demoName)] }).1 = Except.ok true →
      (renderTables net (Json.object manifest) w).2.rightTableBody = some [rightRow 0 record] ∧
        (renderTables net (Json.object manifest) w).2.leftTableBody = some []) := by
  rw [renderTables_run net manifest w right0 left0 hr hl]
  refine ⟨rfl, tracedEntries_keys _ _ _ _ _, ?_, rfl, rfl, ?_, ?_⟩
  · intro e he w1 hw1
    obtain ⟨htrace, _, _⟩ := tracedEntries_mem net manifest _ _ _ e he
    have hsrc : e.2.sourceOk = (entryTrace net manifest e.2.start e.1.2).sourceOk :=
      congrArg EntryTrace.sourceOk htrace
    have hbase : e.2.baselineOk = (entryTrace net manifest e.2.start e.1.2).baselineOk :=
      congrArg EntryTrace.baselineOk htrace
    rw [resourceExists_run, resourceExists_run, hw1, hsrc, hbase]
    constructor
    · rfl
    · simp only [entryTrace, List.length_append, hw1]
      rw [Nat.add_assoc, Nat.add_comm 1]
  · intro hm
    subst hm
    simp [objectKeys, tracedEntries, manifestTrace, expectedRight, expectedLeft]
  · intro demoName record hm hbase hsrc
    subst hm
    rw [resourceExists_run] at hsrc
    have hs : specExists net (w.requests.length + 1) record.source = true := by
      simpa using hsrc
    have hrec : recordOf [(demoName, some record)] demoName = record := by
      simp [recordOf, List.lookup]
    simp [objectKeys, tracedEntries, manifestTrace, expectedRight, expectedLeft, entryTrace,
      hrec, hs, specExists_falsy net _ record.baseline hbase]

theorem renderTables_rows_witness :
    sampleWorld.rightTableBody = some [{ dataRow := "static", cells := [] }] ∧
      sampleWorld.leftTableBody = some [] ∧
      (renderTables allOkNet (Json.object sampleManifest) sampleWorld).2.rightTableBody =
        some (expectedRight sampleManifest
          (tracedEntries allOkNet sampleManifest 0 sampleWorld.requests.length
            (objectKeys sampleManifest))) ∧
      (renderTables allOkNet (Json.object sampleManifest) sampleWorld).2.leftTableBody =
        some (expectedLeft sampleManifest
          (tracedEntries allOkNet sampleManifest 0 sampleWorld.requests.length
            (objectKeys sampleManifest))) :=
  ⟨rfl, rfl,
    (renderTables_rows allOkNet sampleManifest sampleWorld _ _ rfl rfl).2.2.2.1,
    (renderTables_rows allOkNet sampleManifest sampleWorld _ _ rfl rfl).2.2.2.2.1⟩

/-- C8: every row of the right table body has four cells, the audio cells of `source`,
`target_timbre`, `samoye` and `svc_finetune` of its entry in that order; every
row of the left table body has four cells, a text cell followed by the audio
cells of `target_timbre`, `baseline` and `svs_finetune`; an audio cell holds one
`audio` element with `controls`, `preload="metadata"` and the field as `src`
when the field is present and not empty, and nothing otherwise.  For the
manifest with the one entry `a` whose `source` is `s.mp3` and whose `baseline`
is `b.mp3`, both answering the HEAD request with success, each table gets one
row, with one audio element: `s.mp3` in the first cell of the right row and
`b.mp3` in the third cell of the left row. -/
theorem rendered_rows_cells (net : Network) (manifest : Manifest) (w : World)
    (right0 left0 : List Tr)
    (hr : w.rightTableBody = some right0) (hl : w.leftTableBody = some left0) :
    (∀ rows, (renderTables net (Json.object manifest) w).2.rightTableBody = some rows → ∀ row ∈ rows,
      ∃ demoName ∈ objectKeys manifest, ∃ c1 c2 c3 c4, row.cells = [c1, c2, c3, c4] ∧
        IsAudioCellFor (recordOf manifest demoName).source c1 ∧
        IsAudioCellFor (recordOf manifest demoName).target_timbre c2 ∧
        IsAudioCellFor (recordOf manifest demoName).samoye c3 ∧
        IsAudioCellFor (recordOf manifest demoName).svc_finetune c4) ∧
    (∀ rows, (renderTables net (Json.object manifest) w).2.leftTableBody = some rows → ∀ row ∈ rows,
      ∃ demoName ∈ objectKeys manifest, ∃ c0 c1 c2 c3, row.cells = [c0, c1, c2, c3] ∧
        (∃ text, c0.children = [Node.text text]) ∧
        IsAudioCellFor (recordOf manifest demoName).target_timbre c1 ∧
        IsAudioCellFor (recordOf manifest demoName).baseline c2 ∧
        IsAudioCellFor (recordOf manifest demoName).svs_finetune c3) ∧
    (manifest = sampleManifest →
      (∀ n, (net n (headOf "s.mp3")).succeeded = true) →
      (∀ n, (net n (headOf "b.mp3")).succeeded = true) →
      ∃ text,
        (renderTables net (Json.object manifest) w).2.rightTableBody = some [
          { dataRow := "0",
            cells := [
              { className := "text-center",
                children := [Node.audio
                  { attributes := [("preload", "metadata"), ("controls", "")],
                    className := "sample_audio", src := "s.mp3" }] },
              { className := "text-center", children := [] },
              { className := "text-center", children := [] },
              { className := "text-center", children := [] }] }] ∧
        (renderTables net (Json.object manifest) w).2.leftTableBody = some [
          { dataRow := "0",
            cells := [
              { className := "desc", children := [Node.text text] },
              { className := "text-center", children := [] },
              { className := "text-center",
                children := [Node.audio
                  { attributes := [("preload", "metadata"), ("controls", "")],
                    className := "sample_audio", src := "b.mp3" }] },
              { className := "text-center", children := [] }] }]) := by
  rw [renderTables_run net manifest w right0 left0 hr hl]
  refine ⟨?_, ?_, ?_⟩
  · intro rows hrows row hrow
    simp only [Option.some.injEq] at hrows
    subst hrows
    obtain ⟨e, he, _, rfl⟩ := (mem_expectedRight _ _ _).mp hrow
    obtain ⟨_, hkey, _⟩ := tracedEntries_mem net manifest _ _ _ e he
    exact ⟨e.1.2, hkey, _, _, _, _, rfl, audioCell_isAudioCellFor _, audioCell_isAudioCellFor _,
      audioCell_isAudioCellFor _, audioCell_isAudioCellFor _⟩
  · intro rows hrows row hrow
    simp only [Option.some.injEq] at hrows
    subst hrows
    obtain ⟨e, he, _, rfl⟩ := (mem_expectedLeft _ _ _).mp hrow
    obtain ⟨_, hkey, _⟩ := tracedEntries_mem net manifest _ _ _ e he
    exact ⟨e.1.2, hkey, _, _, _, _, rfl, ⟨_, rfl⟩, audioCell_isAudioCellFor _,
      audioCell_isAudioCellFor _, audioCell_isAudioCellFor _⟩
  · intro hm hs hb
    subst hm
    refine ⟨orDefault (specLyrics (net w.requests.length (getOf (lyricsPath "a"))))
      "Enter lyrics here", ?_, ?_⟩
    · have hrec : recordOf sampleManifest "a" =
          { source := some "s.mp3", baseline := some "b.mp3" } := by decide
      have h0 : toString (0 : Nat) = "0" := by decide
      simp [sampleManifest, objectKeys, tracedEntries, manifestTrace, expectedRight, entryTrace,
        specExists, hs, rightRow, audioCell, mkAudio, h0, recordOf, List.lookup]
    · have h0 : toString (0 : Nat) = "0" := by decide
      simp [sampleManifest, objectKeys, tracedEntries, manifestTrace, expectedLeft, entryTrace,
        specExists, hb, leftRow, lyricCell, audioCell, mkAudio, h0, recordOf, List.lookup]

theorem rendered_rows_cells_witness :
    sampleWorld.rightTableBody = some [{ dataRow := "static", cells := [] }] ∧
      sampleWorld.leftTableBody = some [] ∧
      (∀ rows, (renderTables allOkNet (Json.object sampleManifest) sampleWorld).2.rightTableBody = some rows →
        ∀ row ∈ rows,
        ∃ demoName ∈ objectKeys sampleManifest, ∃ c1 c2 c3 c4, row.cells = [c1, c2, c3, c4] ∧
          IsAudioCellFor (recordOf sampleManifest demoName).source c1 ∧
          IsAudioCellFor (recordOf sampleManifest demoName).target_timbre c2 ∧
          IsAudioCellFor (recordOf sampleManifest demoName).samoye c3 ∧
          IsAudioCellFor (recordOf sampleManifest demoName).svc_finetune c4) :=
  ⟨rfl, rfl, (rendered_rows_cells allOkNet sampleManifest sampleWorld _ _ rfl rfl).1⟩

/-! ## The lyrics cell -/

/-- C9: every row of the left table body belongs to an entry whose `baseline` check
succeeded, and every such entry has its row, whatever its lyrics fetch did; the
text of the first cell of the row is never empty: it is the trimmed body of the
lyrics fetch of the entry when that fetch answered with a success status and a
body that is not blank, and the placeholder `Enter lyrics here` when the fetch
threw, answered with a non-success status, had an unreadable body, or a body
that is empty or all whitespace.  Trimming removes a run of whitespace at each
end and leaves a text that neither starts nor ends with whitespace. -/
theorem lyrics_cell_text (net : Network) (manifest : Manifest) (w : World)
    (right0 left0 : List Tr)
    (hr : w.rightTableBody = some right0) (hl : w.leftTableBody = some left0) :
    (∀ rows, (renderTables net (Json.object manifest) w).2.leftTableBody = some rows →
      (∀ e ∈ tracedEntries net manifest 0 w.requests.length (objectKeys manifest),
        e.2.baselineOk = true → ∃ row ∈ rows, row.dataRow = toString e.1.1) ∧
      (∀ row ∈ rows,
        ∃ e ∈ tracedEntries net manifest 0 w.requests.length (objectKeys manifest),
          e.2.baselineOk = true ∧ row.dataRow = toString e.1.1 ∧
          ∃ first rest, row.cells = first :: rest ∧
            first.textContent ≠ "" ∧
            (∀ res t,
              net e.2.start (getOf (lyricsPath e.1.2)) = FetchOutcome.resolved res →
              res.ok = true → res.text = some t →
              (¬ ∀ c ∈ t.data, isJsWhitespace c = true) →
              first.textContent = jsTrim t) ∧
            ((net e.2.start (getOf (lyricsPath e.1.2)) = FetchOutcome.rejected ∨
                ∃ res, net e.2.start (getOf (lyricsPath e.1.2)) = FetchOutcome.resolved res ∧
                  (res.ok = false ∨ res.text = none ∨
                    ∃ t, res.text = some t ∧ ∀ c ∈ t.data, isJsWhitespace c = true)) →
              first.textContent = "Enter lyrics here"))) ∧
    (∀ t : String, ∃ pre post,
      t.data = pre ++ (jsTrim t).data ++ post ∧
        (∀ c ∈ pre, isJsWhitespace c = true) ∧ (∀ c ∈ post, isJsWhitespace c = true) ∧
        (∀ c, (jsTrim t).data.head? = some c → isJsWhitespace c = false) ∧
        (∀ c, (jsTrim t).data.getLast? = some c → isJsWhitespace c = false)) := by
  rw [renderTables_run net manifest w right0 left0 hr hl]
  refine ⟨?_, ?_⟩
  · intro rows hrows
    simp only [Option.some.injEq] at hrows
    subst hrows
    constructor
    · intro e he hok
      exact ⟨_, (mem_expectedLeft _ _ _).mpr ⟨e, he, hok, rfl⟩, rfl⟩
    · intro row hrow
      obtain ⟨e, he, hok, rfl⟩ := (mem_expectedLeft _ _ _).mp hrow
      obtain ⟨htrace, _, _⟩ := tracedEntries_mem net manifest _ _ _ e he
      have hlyr : e.2.lyrics = specLyrics (net e.2.start (getOf (lyricsPath e.1.2))) :=
        congrArg EntryTrace.lyrics htrace
      refine ⟨e, he, hok, rfl, lyricCell e.2.lyrics, _, rfl, ?_, ?_, ?_⟩
      · rw [lyricCell_textContent]
        exact orDefault_ne_empty _ _ (by decide)
      · intro res t hout hres htext hblank
        rw [lyricCell_textContent, hlyr]
        exact (specLyrics_text _).1 res t hout hres htext hblank
      · intro hfail
        rw [lyricCell_textContent, hlyr]
        exact (specLyrics_text _).2 hfail
  · intro t
    obtain ⟨pre, post, hcs, hpre, hpost⟩ := trimChars_decompose t.data
    exact ⟨pre, post, hcs, hpre, hpost, (trimChars_ends t.data).1, (trimChars_ends t.data).2⟩

theorem lyrics_cell_text_witness :
    sampleWorld.rightTableBody = some [{ dataRow := "static", cells := [] }] ∧
      sampleWorld.leftTableBody = some [] ∧
      (∀ rows, (renderTables allOkNet (Json.object sampleManifest) sampleWorld).2.leftTableBody =
          some rows →
        (∀ e ∈ tracedEntries allOkNet sampleManifest 0 sampleWorld.requests.length
            (objectKeys sampleManifest),
          e.2.baselineOk = true → ∃ row ∈ rows, row.dataRow = toString e.1.1) ∧
        (∀ row ∈ rows,
          ∃ e ∈ tracedEntries allOkNet sampleManifest 0 sampleWorld.requests.length
              (objectKeys sampleManifest),
            e.2.baselineOk = true ∧ row.dataRow = toString e.1.1 ∧
            ∃ first rest, row.cells = first :: rest ∧
              first.textContent ≠ "" ∧
              (∀ res t,
                allOkNet e.2.start (getOf (lyricsPath e.1.2)) = FetchOutcome.resolved res →
                res.ok = true → res.text = some t →
                (¬ ∀ c ∈ t.data, isJsWhitespace c = true) →
                first.textContent = jsTrim t) ∧
              ((allOkNet e.2.start (getOf (lyricsPath e.1.2)) = FetchOutcome.rejected ∨
                  ∃ res, allOkNet e.2.start (getOf (lyricsPath e.1.2)) =
                      FetchOutcome.resolved res ∧
                    (res.ok = false ∨ res.text = none ∨
                      ∃ t, res.text = some t ∧ ∀ c ∈ t.data, isJsWhitespace c = true)) →
                first.textContent = "Enter lyrics here"))) :=
  ⟨rfl, rfl, (lyrics_cell_text allOkNet sampleManifest sampleWorld _ _ rfl rfl).1⟩
/-- C6 (as stated, refuted): the first binding callback runs, the render appends a row with two
audio elements, and the user starts both before the rebinding callback has run:
two audio elements of the document are playing. -/
theorem two_playing_before_rebinding :
    (run [Event.timerFires, Event.renderStarts, Event.rowAppended 2, Event.userPlays 0,
      Event.userPlays 1] (Player.init 0 0)).map Player.playingCount = some 2 := by
  decide

/-- C6 (amended): from a state reached from page initialisation in which the render is over
and no binding callback is pending, every further run ends with at most one
audio element of the document playing, provided at most one was playing in that
state or the user has started playback at least once since. -/
theorem settled_at_most_one_playing (outside inTables : Nat) (evs later : List Event)
    (s s2 : Player)
    (hreach : run evs (Player.init outside inTables) = some s)
    (hdone : s.phase = Phase.done) (hpend : s.pendingTimers = 0)
    (hlater : run later s = some s2)
    (hstart : s.playingCount ≤ 1 ∨ ∃ a, Event.userPlays a ∈ later) :
    s2.playingCount ≤ 1 :=
  settled_run later s s2 (settled_covered outside inTables evs s hreach hdone hpend)
    (run_inv evs _ s (init_inv outside inTables) hreach).2.1 hdone hpend hlater hstart

theorem settled_at_most_one_playing_witness :
    run settledTrace (Player.init 0 0) = some settledPlayer ∧
      settledPlayer.phase = Phase.done ∧ settledPlayer.pendingTimers = 0 ∧
      run replayTrace settledPlayer = some replayedPlayer ∧
      (settledPlayer.playingCount ≤ 1 ∨ ∃ a, Event.userPlays a ∈ replayTrace) ∧
      replayedPlayer.playingCount ≤ 1 :=
  ⟨rfl, rfl, rfl, rfl, Or.inl (by decide),
    settled_at_most_one_playing 0 0 settledTrace replayTrace settledPlayer replayedPlayer
      rfl rfl rfl rfl (Or.inl (by decide))⟩

/-- C7: once the render is over and every binding callback has run, a play event on an
audio element of the document, whatever the `paused` flags are, leaves every
other audio element of the document paused and leaves the flag of its target
as it was; after the user has started playback of an element, that element is
not paused and every other one is. -/
theorem play_pauses_all_others (outside inTables : Nat) (evs : List Event) (s : Player)
    (hreach : run evs (Player.init outside inTables) = some s)
    (hdone : s.phase = Phase.done) (hpend : s.pendingTimers = 0)
    (a : Nat) (ha : a ∈ s.ids) :
    (∀ flags : Nat → Bool,
      (∀ b ∈ s.ids, b ≠ a → dispatchPlay a s.listeners flags b = true) ∧
        dispatchPlay a s.listeners flags a = flags a) ∧
    (∀ s1, step (Event.userPlays a) s = some s1 →
      s1.ids = s.ids ∧ s1.paused a = false ∧ ∀ b ∈ s1.ids, b ≠ a → s1.paused b = true) := by
  have hcov := settled_covered outside inTables evs s hreach hdone hpend
  refine ⟨fun flags => ⟨fun b hb hne => ?_, dispatchPlay_target a s.listeners flags⟩, ?_⟩
  · obtain ⟨l, hl, hla, hall⟩ := hcov a ha
    exact dispatchPlay_other a s.listeners flags l hl hla b (hall b hb) hne
  · intro s1 hstep
    obtain ⟨haud, _, _, _, hself, hothers⟩ := userPlays_exclusive s s1 a hcov hstep
    have hids : s1.ids = s.ids := by simp [Player.ids, haud]
    exact ⟨hids, hself, fun b hb hne => hothers b (hids ▸ hb) hne⟩

theorem play_pauses_all_others_witness :
    run settledTrace (Player.init 0 0) = some settledPlayer ∧
      settledPlayer.phase = Phase.done ∧ settledPlayer.pendingTimers = 0 ∧
      1 ∈ settledPlayer.ids ∧
      ((∀ flags : Nat → Bool,
        (∀ b ∈ settledPlayer.ids, b ≠ 1 →
          dispatchPlay 1 settledPlayer.listeners flags b = true) ∧
          dispatchPlay 1 settledPlayer.listeners flags 1 = flags 1) ∧
      (∀ s1, step (Event.userPlays 1) settledPlayer = some s1 →
        s1.ids = settledPlayer.ids ∧ s1.paused 1 = false ∧
          ∀ b ∈ s1.ids, b ≠ 1 → s1.paused b = true)) :=
  ⟨rfl, rfl, rfl, by decide,
    play_pauses_all_others 0 0 settledTrace settledPlayer rfl rfl rfl 1 (by decide)⟩

end CartoonSing
